import Mathlib

/-!
# Verification of the pahcer parallel test-execution engine

Shallow embedding of the core of the `pahcer` test harness
(`src/runner/single.rs`, `src/runner/multi.rs`, `src/runner/compilie.rs`,
`src/runner/io.rs`, `src/runner.rs`) together with proofs of the
specification's claims about it.

Modelling conventions:
* Rust `f64` values are modelled as rationals (`ℚ`), treating the floating
  point operations that the engine performs (division, multiplication by 100,
  addition, `max`, `log10`) as exact.  `f64::log10` is kept abstract: the
  definitions that use it take a `log10 : Nat → ℚ` parameter.
* Rust `u64` values are modelled as `Nat`, with an explicit `% 2 ^ 64` where
  the 64-bit width matters (wrapping of `Iterator::sum` in release builds),
  and an explicit saturating truncation for the `f64 as u64` cast.
* `NonZeroU64` values are modelled as `Nat` produced through `nonZeroU64_new`,
  the embedding of `NonZeroU64::new` (`none` for zero).
* External effects (process spawning, the regex engine, file I/O) are
  parameters: the oracle arguments describe what the operating system and the
  regex library answer, and the definitions faithfully reproduce how the Rust
  code reacts to those answers.
* `std::time::Duration` is modelled as `Nat` (an abstract number of time
  units); `Duration::ZERO` is `0`.
-/

namespace Pahcer

/-- The direction to optimize the score (`Objective` in `single.rs`). -/
inductive Objective where
  | Max : Objective
  | Min : Objective
deriving DecidableEq, Repr

/-- One test case (`TestCase` in `single.rs`): a seed, an optional reference
score (a `NonZeroU64`, hence a positive natural number here) and the
objective. -/
structure TestCase where
  seed : Nat
  reference_score : Option Nat
  objective : Objective
deriving DecidableEq, Repr

/-- Embedding of `TestCase::calc_relative_score` (`single.rs` lines 44-53):
`100.0` when no reference score is stored, otherwise `new / old * 100` for
`Max` and `old / new * 100` for `Min`, with `f64` arithmetic modelled on
`ℚ`. -/
def TestCase.calc_relative_score (tc : TestCase) (new_score : Nat) : ℚ :=
  match tc.reference_score with
  | none => 100
  | some old_score =>
    match tc.objective with
    | Objective.Max => (new_score : ℚ) / (old_score : ℚ) * 100
    | Objective.Min => (old_score : ℚ) / (new_score : ℚ) * 100

/-- Embedding of `TestCase::is_best` (`single.rs` lines 55-68). -/
def TestCase.is_best (tc : TestCase) (new_score : Option Nat) : Bool :=
  match new_score with
  | none => false
  | some new_score =>
    match tc.reference_score with
    | none => true
    | some old_score =>
      match tc.objective with
      | Objective.Max => decide (new_score ≥ old_score)
      | Objective.Min => decide (new_score ≤ old_score)

deriving instance DecidableEq for Except

/-- The result of one test case (`TestResult` in `single.rs`).  `score` is
`Except message positive-score`; `relative_score` is derived from `score` at
construction time; `execution_time` is in abstract time units. -/
structure TestResult where
  test_case : TestCase
  score : Except String Nat
  relative_score : Except String ℚ
  execution_time : Nat
deriving DecidableEq, Repr

/-- Embedding of `TestResult::new` (`single.rs` lines 84-97): the relative
score is computed from the score with `calc_relative_score`. -/
def TestResult.new (test_case : TestCase) (score : Except String Nat)
    (execution_time : Nat) : TestResult :=
  { test_case := test_case
    score := score
    relative_score := score.map (fun s => test_case.calc_relative_score s)
    execution_time := execution_time }

/-- Embedding of `TestResult::score_log10` (`single.rs` lines 108-110), with
the abstract float logarithm passed as a parameter. -/
def TestResult.score_log10 (log10 : Nat → ℚ) (r : TestResult) : Except String ℚ :=
  r.score.map (fun s => log10 s)

/-- Embedding of `NonZeroU64::new`: `none` exactly on zero. -/
def nonZeroU64_new (n : Nat) : Option Nat :=
  if n = 0 then none else some n

/-- The Rust cast `f64 as u64` on the rational model of `f64`: truncation
toward zero, saturating below at `0` and above at `2 ^ 64 - 1`.  (`NaN`,
which also casts to `0`, has no representative in `ℚ`.) -/
def f64_as_u64 (x : ℚ) : Nat :=
  if x < 0 then 0 else min x.floor.toNat (2 ^ 64 - 1)

/-- One test step (`TestStep` in `single.rs` lines 13-22).  Note that the
source structure has exactly these seven fields; in particular it carries no
OS-filter regex. -/
structure TestStep where
  program : String
  args : List String
  current_dir : Option String
  stdin : Option String
  stdout : Option String
  stderr : Option String
  measure_time : Bool
deriving DecidableEq, Repr

/-- Embedding of `SingleCaseRunner::replace_placeholder` (`single.rs` lines
279-282): replace every `{SEED}` with the decimal seed and every `{SEED04}`
with the decimal seed zero-padded to at least four digits. -/
def replace_placeholder (s : String) (seed : Nat) : String :=
  let d := toString seed
  let padded := String.mk (List.replicate (4 - d.length) (Char.ofNat 48)) ++ d
  (s.replace "{SEED}" d).replace "{SEED04}" padded

/-- Embedding of `SingleCaseRunner::extract_score` (`single.rs` lines
266-277).  The regex engine and the float parser are oracles: `decode` is the
lossy UTF-8 decoding of one captured byte buffer, `captures` lists the text of
the named group `score` for each regex match of a decoded buffer, in order of
appearance, and `parse` is `str::parse::<f64>` (`none` when parsing fails).
For each buffer the last successfully parsed capture is kept (inner
`filter_map ... last`), and the last buffer producing a value wins (outer
`filter_map ... last`). -/
def extract_score (decode : List Nat → String) (captures : String → List String)
    (parse : String → Option ℚ) (outputs : List (List Nat)) : Option ℚ :=
  (outputs.filterMap
    (fun s => ((captures (decode s)).filterMap parse).getLast?)).getLast?

/-- The specification's description of score extraction (spec section 4.3):
across all buffers in order, find all captures of the named group `score`,
parse each, and return the last successfully parsed value. -/
def extract_score_spec (decode : List Nat → String) (captures : String → List String)
    (parse : String → Option ℚ) (outputs : List (List Nat)) : Option ℚ :=
  (((outputs.map (fun s => captures (decode s))).flatten).filterMap parse).getLast?

/-- Embedding of `SingleCaseRunner::run_steps` (`single.rs` lines 174-188).
`exec` is the oracle describing what executing one step at one seed does
(`build_cmd` followed by `runCmd`): either an error, or the pair of captured
stdout/stderr byte buffers together with the elapsed time.  The loop pushes
stdout then stderr of each step onto `outputs` and adds the elapsed time to
`execution_time` only when `measure_time` is set; the `?` operator makes the
first error short-circuit the remaining steps. -/
def run_steps (exec : Nat → TestStep → Except String (List Nat × List Nat × Nat))
    (seed : Nat) : List TestStep → Except String (List (List Nat) × Nat)
  | [] => Except.ok ([], 0)
  | step :: rest =>
    match exec seed step with
    | Except.error e => Except.error e
    | Except.ok (out, err, elapsed) =>
      match run_steps exec seed rest with
      | Except.error e => Except.error e
      | Except.ok (outputs, execution_time) =>
        Except.ok (out :: err :: outputs,
          (if step.measure_time then elapsed else 0) + execution_time)

/-- The runner for a single case (`SingleCaseRunner` in `single.rs`); the
compiled score regex is abstracted by the `captures` oracle of
`extract_score`. -/
structure SingleCaseRunner where
  steps : List TestStep
deriving DecidableEq, Repr

/-- Embedding of `SingleCaseRunner::run` (`single.rs` lines 153-172): run the
steps; on success extract the score, treat `NonZeroU64::new(score as u64) =
None` as `Wrong Answer` and a missing score as `Score not found`; on a step
error produce a failure result with `Duration::ZERO` execution time. -/
def SingleCaseRunner.run (exec : Nat → TestStep → Except String (List Nat × List Nat × Nat))
    (decode : List Nat → String) (captures : String → List String)
    (parse : String → Option ℚ) (runner : SingleCaseRunner) (test_case : TestCase) :
    TestResult :=
  match run_steps exec test_case.seed runner.steps with
  | Except.ok (outputs, execution_time) =>
    let score : Except String Nat :=
      match extract_score decode captures parse outputs with
      | some score =>
        match nonZeroU64_new (f64_as_u64 score) with
        | some score => Except.ok score
        | none => Except.error "Wrong Answer"
      | none => Except.error "Score not found"
    TestResult.new test_case score execution_time
  | Except.error e => TestResult.new test_case (Except.error e) 0

/-- Embedding of `SingleCaseRunner::build_cmd` (`single.rs` lines 190-207),
restricted to its only fallible part: when a stdin path is configured, opening
the expanded path can fail (`stdinOk` is the file-system oracle), producing
the `Failed to open input file` error. -/
def build_cmd (stdinOk : String → Bool) (step : TestStep) (seed : Nat) :
    Except String Unit :=
  match step.stdin with
  | none => Except.ok ()
  | some p =>
    let p := replace_placeholder p seed
    if stdinOk p then Except.ok ()
    else Except.error ("Failed to open input file (" ++ p ++ ")")

/-- An observable file-system effect of `runCmd`: writing a captured output
buffer to a path. -/
inductive Effect where
  | writeFile (path : String) (contents : List Nat) : Effect
deriving DecidableEq, Repr

/-- What `cmd.output()` returned for one step: the captured stdout and stderr
byte buffers, the exit status (`0` is success) and the elapsed wall time. -/
structure CmdOutput where
  stdout : List Nat
  stderr : List Nat
  status : Int
  elapsed : Nat
deriving DecidableEq, Repr

/-- Embedding of `Self::write_output` as called from `runCmd`: when a path is
configured, expand the placeholders and write the buffer (the `writeOk` oracle
says whether the file write succeeds).  Returns the write effects performed
and the outcome, with the stream-specific error message built in `runCmd`. -/
def try_write (writeOk : String → Bool) (pathOpt : Option String) (seed : Nat)
    (contents : List Nat) (streamName : String) : List Effect × Except String Unit :=
  match pathOpt with
  | none => ([], Except.ok ())
  | some p =>
    let p := replace_placeholder p seed
    if writeOk p then ([Effect.writeFile p contents], Except.ok ())
    else ([], Except.error ("Failed to write " ++ streamName ++ " to " ++ p))

/-- Embedding of `SingleCaseRunner::runCmd` (`single.rs` lines 209-247).
`output` is what `cmd.output()` returned (`Except.error` models a spawn
failure).  The first component is the ordered trace of file-system effects the
function performed; the status check at the end performs no effect, so every
effect in the trace happened before the `Failed to run (status)` error is
produced.  On success the captured buffers and the elapsed time are
returned (the caller pushes the buffers onto `outputs`). -/
def runCmd (output : Except String CmdOutput) (writeOk : String → Bool)
    (step : TestStep) (seed : Nat) :
    List Effect × Except String (List Nat × List Nat × Nat) :=
  match output with
  | Except.error e =>
    ([], Except.error ("Failed to run. command: " ++ step.program ++ ": " ++ e))
  | Except.ok out =>
    let w1 := try_write writeOk step.stdout seed out.stdout "stdout"
    match w1.2 with
    | Except.error e => (w1.1, Except.error e)
    | Except.ok _ =>
      let w2 := try_write writeOk step.stderr seed out.stderr "stderr"
      match w2.2 with
      | Except.error e => (w1.1 ++ w2.1, Except.error e)
      | Except.ok _ =>
        if out.status = 0 then
          (w1.1 ++ w2.1, Except.ok (out.stdout, out.stderr, out.elapsed))
        else
          (w1.1 ++ w2.1,
            Except.error ("Failed to run (" ++ toString out.status
              ++ "). command: " ++ step.program))

/-- The faithful step oracle for `run_steps`: `build_cmd` (stdin opening)
followed by `runCmd` (spawn, output capture, file writes, status check),
with the file-system effects erased as `run_steps` only sees the `Result`. -/
def exec_step (stdinOk : String → Bool)
    (cmdOutput : Nat → TestStep → Except String CmdOutput)
    (writeOk : String → Bool) (seed : Nat) (step : TestStep) :
    Except String (List Nat × List Nat × Nat) :=
  match build_cmd stdinOk step seed with
  | Except.error e => Except.error e
  | Except.ok _ => (runCmd (cmdOutput seed step) writeOk step seed).2

/-- Aggregate statistics over the sorted results (`TestStats` in
`multi.rs`). -/
structure TestStats where
  results : List TestResult
  score_sum : Nat
  score_sum_log10 : ℚ
  relative_score_sum : ℚ
deriving DecidableEq, Repr

/-- The wrapping `u64` sum used by `Iterator::sum::<u64>()` in a release
build: a left fold of 64-bit additions. -/
def u64_sum (l : List Nat) : Nat :=
  l.foldl (fun acc x => (acc + x) % 2 ^ 64) 0

/-- Embedding of `TestStats::new` (`multi.rs` lines 228-252): `score_sum` is
the 64-bit sum of the successful scores, `score_sum_log10` the sum of the
`log10` of the successful scores clamped below at `0` (`.max(0.0)`), and
`relative_score_sum` the clamped sum of the successful relative scores. -/
def TestStats.new (log10 : Nat → ℚ) (results : List TestResult) : TestStats :=
  { results := results
    score_sum := u64_sum (results.filterMap (fun r => r.score.toOption))
    score_sum_log10 :=
      max ((results.filterMap (fun r => (r.score_log10 log10).toOption)).sum) 0
    relative_score_sum :=
      max ((results.filterMap (fun r => r.relative_score.toOption)).sum) 0 }

/-- Embedding of `MultiCaseRunner::collect_results` (`multi.rs` lines 56-77):
the results are received from the channel in completion order (`arrival`),
sorted by seed (`sort_unstable_by_key(|r| r.test_case().seed())`; seeds are
distinct in a run, so the unstable sort is modelled by `mergeSort` with the
same key) and aggregated with `TestStats::new`.  The console printing is
side-effect only and does not touch the returned stats. -/
def collect_results (log10 : Nat → ℚ) (arrival : List TestResult) : TestStats :=
  TestStats.new log10
    (arrival.mergeSort (fun a b => decide (a.test_case.seed ≤ b.test_case.seed)))

/-- Embedding of the test-case construction in `runner::run` (`runner.rs`
lines 87-99): one `TestCase` per seed of `[start_seed, end_seed)`, with the
stored best score (if any) as reference.  The best-score map is modelled as
an association list (`List.lookup` models `HashMap::get`). -/
def build_test_cases (best_scores : List (Nat × Nat)) (objective : Objective)
    (start_seed end_seed : Nat) : List TestCase :=
  (List.range' start_seed (end_seed - start_seed)).map
    (fun seed =>
      { seed := seed
        reference_score := best_scores.lookup seed
        objective := objective })

/-- Embedding of the Rust `str::parse::<u64>` on decimal keys: digits only,
rejecting values outside `u64` range.  (Rust also accepts a leading `+`,
irrelevant to the claims.) -/
def parse_u64 (s : String) : Option Nat :=
  match s.toNat? with
  | some n => if n < 2 ^ 64 then some n else none
  | none => none

/-- Embedding of `load_best_scores` (`io.rs` lines 31-52).  `openResult` is
the oracle for `File::open` followed by JSON parsing: `none` when the file
cannot be opened (the function then returns an empty map), `some (.error e)`
when the JSON fails to parse (an error), and `some (.ok entries)` for the
parsed string-to-u64 object.  Entries whose key does not parse as `u64` or
whose value is zero are silently dropped. -/
def load_best_scores (openResult : Option (Except String (List (String × Nat)))) :
    Except String (List (Nat × Nat)) :=
  match openResult with
  | none => Except.ok []
  | some (Except.error _) => Except.error "Failed to parse json"
  | some (Except.ok entries) =>
    Except.ok (entries.filterMap
      (fun kv =>
        match parse_u64 kv.1, nonZeroU64_new kv.2 with
        | some key, some value => some (key, value)
        | _, _ => none))

/-- One compile step (`CompileStep` in `compilie.rs` lines 5-11); unlike
`TestStep`, it carries an optional OS-filter regex. -/
structure CompileStep where
  program : String
  args : List String
  current_dir : Option String
  os_regex : Option String
deriving DecidableEq, Repr

/-- Embedding of `compile` (`compilie.rs` lines 29-69).  `matchOS` is the
regex oracle for `Regex::new(os_regex)` followed by `is_match` on the running
OS identifier: `none` when the regex is malformed (`Regex::new` fails),
`some b` for a regex matching (`b = true`) or not matching the OS.
`execStatus` is the oracle for `cmd.status()`: `Except.error` for a spawn
failure, otherwise the exit status.  The result records, in order: the steps
whose command was actually invoked, the messages printed to stderr
(`eprintln!`), and the overall outcome.  A step whose regex does not match is
skipped (`continue`); a malformed regex prints a message and skips the step;
a spawn failure or non-zero status aborts with an error. -/
def compile (matchOS : String → Option Bool)
    (execStatus : CompileStep → Except String Int) :
    List CompileStep → List CompileStep × List String × Except String Unit
  | [] => ([], [], Except.ok ())
  | step :: rest =>
    let skip_to_next :=
      match step.os_regex with
      | none => none
      | some r =>
        match matchOS r with
        | some true => none
        | some false => some ([] : List String)
        | none => some ["Invalid regex found in test step."]
    match skip_to_next with
    | some log =>
      let (executed, logs, outcome) := compile matchOS execStatus rest
      (executed, log ++ logs, outcome)
    | none =>
      match execStatus step with
      | Except.error e =>
        ([step], [], Except.error ("Failed to compile. command: " ++ step.program ++ ": " ++ e))
      | Except.ok status =>
        if status = 0 then
          let (executed, logs, outcome) := compile matchOS execStatus rest
          (step :: executed, logs, outcome)
        else
          ([step], [],
            Except.error ("Failed to compile. command: " ++ step.program
              ++ ", status: " ++ toString status))

/-- Modelled from the spec: the specification's `TestStep` data model
(spec section 3) carries an optional OS-filter regex field in addition to the
seven fields of the source `TestStep` (`single.rs` lines 13-22, which has no
such field).  This type follows the spec's words and exists only to compare
the spec's step-skipping semantics with the source. -/
structure TestStepSpec where
  program : String
  args : List String
  current_dir : Option String
  stdin : Option String
  stdout : Option String
  stderr : Option String
  os_filter : Option String
  measure_time : Bool
deriving DecidableEq, Repr

/-- Erasing the spec-only OS-filter field yields the source `TestStep`. -/
def TestStepSpec.toTestStep (s : TestStepSpec) : TestStep :=
  { program := s.program
    args := s.args
    current_dir := s.current_dir
    stdin := s.stdin
    stdout := s.stdout
    stderr := s.stderr
    measure_time := s.measure_time }

/-- Modelled from the spec (section 4.2): case execution in which a step
carrying an OS-filter regex that does not match the running OS — or whose
regex is malformed — is skipped, contributing no output, no time and no
error.  The source `run_steps` has no such check. -/
def run_steps_spec (matchOS : String → Option Bool)
    (exec : Nat → TestStep → Except String (List Nat × List Nat × Nat))
    (seed : Nat) : List TestStepSpec → Except String (List (List Nat) × Nat)
  | [] => Except.ok ([], 0)
  | step :: rest =>
    let skipped :=
      match step.os_filter with
      | none => false
      | some r =>
        match matchOS r with
        | some true => false
        | some false => true
        | none => true
    if skipped then run_steps_spec matchOS exec seed rest
    else
      match exec seed step.toTestStep with
      | Except.error e => Except.error e
      | Except.ok (out, err, elapsed) =>
        match run_steps_spec matchOS exec seed rest with
        | Except.error e => Except.error e
        | Except.ok (outputs, execution_time) =>
          Except.ok (out :: err :: outputs,
            (if step.measure_time then elapsed else 0) + execution_time)

/-! ## Concrete instances used by the witnesses and counterexamples -/

/-- Concrete decode oracle: every byte buffer decodes to the empty string. -/
def cdecode : List Nat → String := fun _ => ""

/-- Concrete regex oracle: every decoded buffer has one capture, `2.5`. -/
def ccaptures : String → List String := fun _ => ["2.5"]

/-- Concrete float parser: `2.5` parses to `5 / 2`, everything else fails. -/
def cparse : String → Option ℚ := fun s => if s = "2.5" then some (5 / 2) else none

/-- Concrete step oracle: every step succeeds with empty buffers instantly. -/
def cexec : Nat → TestStep → Except String (List Nat × List Nat × Nat) :=
  fun _ _ => Except.ok ([], [], 0)

/-- A concrete solver step with no redirections. -/
def cstep : TestStep :=
  { program := "solver", args := [], current_dir := none, stdin := none
    stdout := none, stderr := none, measure_time := true }

/-- A concrete one-step runner. -/
def crunner : SingleCaseRunner := { steps := [cstep] }

/-- A concrete test case with no reference score. -/
def ctc : TestCase := { seed := 0, reference_score := none, objective := Objective.Max }

/-- Concrete step oracle for the short-circuit witness: the step named `bad`
fails, everything else succeeds. -/
def wexec7 : Nat → TestStep → Except String (List Nat × List Nat × Nat) :=
  fun _ s => if s.program = "bad" then Except.error "boom"
             else Except.ok ([1], [2], 3)

/-- A concrete succeeding step. -/
def wgood : TestStep :=
  { program := "good", args := [], current_dir := none, stdin := none
    stdout := none, stderr := none, measure_time := true }

/-- A concrete failing step. -/
def wbad : TestStep :=
  { program := "bad", args := [], current_dir := none, stdin := none
    stdout := none, stderr := none, measure_time := true }

/-- A concrete runner whose middle step fails. -/
def wrunner7 : SingleCaseRunner := { steps := [wgood, wbad, wgood] }

/-- Concrete abstract logarithm (identically zero). -/
def wlog10 : Nat → ℚ := fun _ => 0

/-- Concrete regex oracle with no captures at all. -/
def wcaptures : String → List String := fun _ => []

/-- Concrete parser that always fails. -/
def wparse : String → Option ℚ := fun _ => none

/-- A concrete runner with no steps. -/
def wrunner3 : SingleCaseRunner := { steps := [] }

/-- A concrete shuffled case list for the seed range `[0, 2)`. -/
def wcases3 : List TestCase :=
  [{ seed := 1, reference_score := none, objective := Objective.Max },
   { seed := 0, reference_score := none, objective := Objective.Max }]

/-- The concrete completion-order arrival list for `wcases3`. -/
def warrival3 : List TestResult :=
  wcases3.map (fun tc => SingleCaseRunner.run cexec cdecode wcaptures wparse wrunner3 tc)

/-- A concrete captured command output with non-zero exit status. -/
def wout9 : CmdOutput := { stdout := [1], stderr := [2], status := 1, elapsed := 3 }

/-- A concrete step with stdout and stderr redirection paths configured. -/
def wstep9 : TestStep :=
  { program := "solver", args := [], current_dir := none, stdin := none
    stdout := some "out/{SEED04}.txt", stderr := some "err/{SEED04}.txt"
    measure_time := true }

/-- A file-system oracle on which every write succeeds. -/
def wwriteOk : String → Bool := fun _ => true

/-- A spec-side test step carrying an OS filter that does not match the
running OS. -/
def c4step : TestStepSpec :=
  { program := "solver", args := [], current_dir := none, stdin := none
    stdout := none, stderr := none, os_filter := some "windows"
    measure_time := true }

/-- Concrete step oracle: the step produces output buffers and elapsed
time 5. -/
def c4exec : Nat → TestStep → Except String (List Nat × List Nat × Nat) :=
  fun _ _ => Except.ok ([1], [2], 5)

/-- Concrete regex oracle: every OS-filter regex compiles and fails to match
the running OS. -/
def c4matchOS : String → Option Bool := fun _ => some false

/-- Concrete regex oracle: the regex `bad` is malformed, every other regex
compiles and does not match the running OS. -/
def wmatchOS4 : String → Option Bool :=
  fun r => if r = "bad" then none else some false

/-- Concrete status oracle: every compile command exits with status 0. -/
def wexecStatus4 : CompileStep → Except String Int := fun _ => Except.ok 0

/-- A concrete compile step filtered out by a non-matching OS regex. -/
def wcstep1 : CompileStep :=
  { program := "skipme", args := [], current_dir := none, os_regex := some "windows" }

/-- A concrete compile step with a malformed OS regex. -/
def wcstep2 : CompileStep :=
  { program := "badregex", args := [], current_dir := none, os_regex := some "bad" }

/-- A concrete unfiltered compile step list. -/
def wcrest : List CompileStep :=
  [{ program := "build", args := [], current_dir := none, os_regex := none }]

/-! ## Helper lemmas -/

/-- `getLast?` of a cons, expressed with `Option.or`. -/
theorem getLast?_cons_or {α : Type} (x : α) (l : List α) :
    (x :: l).getLast? = l.getLast?.or (some x) := by
  rw [show x :: l = [x] ++ l from rfl, List.getLast?_append]
  rfl

/-- Taking the last of the per-group lasts is taking the last of the
flattened groups. -/
theorem getLast?_filterMap_getLast? {α β : Type} (g : α → List β) (l : List α) :
    (l.filterMap (fun a => (g a).getLast?)).getLast? = ((l.map g).flatten).getLast? := by
  induction l with
  | nil => rfl
  | cons a t ih =>
    rw [List.map_cons, List.flatten_cons, List.getLast?_append, ← ih]
    cases h : (g a).getLast? with
    | none =>
      rw [List.filterMap_cons, h, Option.or_none]
    | some b =>
      rw [List.filterMap_cons, h, getLast?_cons_or]

/-- The wrapping 64-bit sum agrees with the mathematical sum modulo `2 ^ 64`. -/
theorem u64_sum_eq_sum_mod (l : List Nat) : u64_sum l = l.sum % 2 ^ 64 := by
  have h : ∀ (l : List Nat) (a : Nat),
      l.foldl (fun acc x => (acc + x) % 2 ^ 64) (a % 2 ^ 64) = (a + l.sum) % 2 ^ 64 := by
    intro l
    induction l with
    | nil => intro a; simp
    | cons x t ih =>
      intro a
      simp only [List.foldl_cons, List.sum_cons]
      rw [Nat.mod_add_mod, ih (a + x), Nat.add_assoc]
  have h0 := h l 0
  simpa [u64_sum] using h0

/-- `Except.toOption` commutes with `Except.map`. -/
theorem except_toOption_map {ε α β : Type} (f : α → β) (e : Except ε α) :
    (e.map f).toOption = e.toOption.map f := by
  cases e <;> rfl

/-- `SingleCaseRunner.run` returns a result whose `test_case` is the case it
was given (`TestResult::new` stores it unchanged). -/
theorem run_test_case_eq (exec : Nat → TestStep → Except String (List Nat × List Nat × Nat))
    (decode : List Nat → String) (captures : String → List String)
    (parse : String → Option ℚ) (runner : SingleCaseRunner) (tc : TestCase) :
    (SingleCaseRunner.run exec decode captures parse runner tc).test_case = tc := by
  unfold SingleCaseRunner.run
  cases h : run_steps exec tc.seed runner.steps with
  | ok v => rfl
  | error e => rfl

/-! ## Claims -/

/-- Claim C2: for every sequence of captured output buffers (each decoded
lossily as UTF-8, in step execution order), score extraction returns the last
value across all buffers, in order of appearance, that is captured by the
named group `score` and parses as a floating-point number; if no match parses
successfully, it returns `none` — i.e. `extract_score` agrees with the
specification's flattened last-match description. -/
theorem claim_c2_extract_score_last_match (decode : List Nat → String)
    (captures : String → List String) (parse : String → Option ℚ)
    (outputs : List (List Nat)) :
    extract_score decode captures parse outputs
      = extract_score_spec decode captures parse outputs := by
  unfold extract_score extract_score_spec
  rw [List.filterMap_flatten, List.map_map]
  simpa [Function.comp] using
    getLast?_filterMap_getLast? (fun s => (captures (decode s)).filterMap parse) outputs

/-- Claim C5: for every test case with a successful score `new`, the derived
relative score equals `100` when the reference score is absent, equals
`new / old * 100` under `Max` with reference `old`, and equals
`old / new * 100` under `Min` with reference `old`. -/
theorem claim_c5_relative_score (tc : TestCase) (new_score old_score t : Nat) :
    (tc.reference_score = none →
      (TestResult.new tc (Except.ok new_score) t).relative_score = Except.ok 100) ∧
    (tc.reference_score = some old_score → tc.objective = Objective.Max →
      (TestResult.new tc (Except.ok new_score) t).relative_score
        = Except.ok ((new_score : ℚ) / (old_score : ℚ) * 100)) ∧
    (tc.reference_score = some old_score → tc.objective = Objective.Min →
      (TestResult.new tc (Except.ok new_score) t).relative_score
        = Except.ok ((old_score : ℚ) / (new_score : ℚ) * 100)) := by
  refine ⟨fun h => ?_, fun h hobj => ?_, fun h hobj => ?_⟩
  · simp [TestResult.new, TestCase.calc_relative_score, Except.map, h]
  · simp [TestResult.new, TestCase.calc_relative_score, Except.map, h, hobj]
  · simp [TestResult.new, TestCase.calc_relative_score, Except.map, h, hobj]

/-- Witness for claim C5 at concrete inputs covering all three cases. -/
theorem claim_c5_relative_score_witness :
    (TestResult.new { seed := 0, reference_score := none, objective := Objective.Max }
        (Except.ok 7) 0).relative_score = Except.ok 100 ∧
    (TestResult.new { seed := 0, reference_score := some 4, objective := Objective.Max }
        (Except.ok 8) 0).relative_score = Except.ok (((8 : Nat) : ℚ) / ((4 : Nat) : ℚ) * 100) ∧
    (TestResult.new { seed := 0, reference_score := some 8, objective := Objective.Min }
        (Except.ok 4) 0).relative_score = Except.ok (((8 : Nat) : ℚ) / ((4 : Nat) : ℚ) * 100) :=
  ⟨(claim_c5_relative_score
      { seed := 0, reference_score := none, objective := Objective.Max } 7 0 0).1 rfl,
   (claim_c5_relative_score
      { seed := 0, reference_score := some 4, objective := Objective.Max } 8 4 0).2.1 rfl rfl,
   (claim_c5_relative_score
      { seed := 0, reference_score := some 8, objective := Objective.Min } 4 8 0).2.2 rfl rfl⟩

/-- Claim C6: the "is new best?" predicate returns `false` when the new score
is absent; returns `true` when a new score exists and no reference score
exists; and otherwise returns `true` iff `new ≥ old` under `Max` and
`new ≤ old` under `Min`. -/
theorem claim_c6_is_best (tc : TestCase) (new_score old_score : Nat) :
    (tc.is_best none = false) ∧
    (tc.reference_score = none → tc.is_best (some new_score) = true) ∧
    (tc.reference_score = some old_score → tc.objective = Objective.Max →
      (tc.is_best (some new_score) = true ↔ new_score ≥ old_score)) ∧
    (tc.reference_score = some old_score → tc.objective = Objective.Min →
      (tc.is_best (some new_score) = true ↔ new_score ≤ old_score)) := by
  refine ⟨rfl, fun h => ?_, fun h hobj => ?_, fun h hobj => ?_⟩
  · simp [TestCase.is_best, h]
  · simp [TestCase.is_best, h, hobj, ge_iff_le]
  · simp [TestCase.is_best, h, hobj]

/-- Witness for claim C6 at concrete inputs covering all four cases. -/
theorem claim_c6_is_best_witness :
    (TestCase.is_best { seed := 0, reference_score := some 4, objective := Objective.Max }
      none = false) ∧
    (TestCase.is_best { seed := 0, reference_score := none, objective := Objective.Max }
      (some 3) = true) ∧
    ((TestCase.is_best { seed := 0, reference_score := some 4, objective := Objective.Max }
      (some 3) = true) ↔ 3 ≥ 4) ∧
    ((TestCase.is_best { seed := 0, reference_score := some 4, objective := Objective.Min }
      (some 3) = true) ↔ 3 ≤ 4) :=
  ⟨(claim_c6_is_best
      { seed := 0, reference_score := some 4, objective := Objective.Max } 3 4).1,
   (claim_c6_is_best
      { seed := 0, reference_score := none, objective := Objective.Max } 3 4).2.1 rfl,
   (claim_c6_is_best
      { seed := 0, reference_score := some 4, objective := Objective.Max } 3 4).2.2.1 rfl rfl,
   (claim_c6_is_best
      { seed := 0, reference_score := some 4, objective := Objective.Min } 3 4).2.2.2 rfl rfl⟩

/-- Claim C8: for every list of case results, the constructed aggregate has
`score_sum` equal to the 64-bit sum of the scores of the successful results
only, `score_sum_log10` equal to `max 0` of the sum of the logarithms of the
successful scores, `relative_score_sum` equal to `max 0` of the sum of the
successful relative scores; hence `score_sum_log10 ≥ 0` always. -/
theorem claim_c8_test_stats (log10 : Nat → ℚ) (results : List TestResult) :
    (TestStats.new log10 results).score_sum
      = (results.filterMap (fun r => r.score.toOption)).sum % 2 ^ 64 ∧
    (TestStats.new log10 results).score_sum_log10
      = max 0 (((results.filterMap (fun r => r.score.toOption)).map log10).sum) ∧
    (TestStats.new log10 results).relative_score_sum
      = max 0 ((results.filterMap (fun r => r.relative_score.toOption)).sum) ∧
    0 ≤ (TestStats.new log10 results).score_sum_log10 := by
  have hlog : results.filterMap (fun r => (r.score_log10 log10).toOption)
      = (results.filterMap (fun r => r.score.toOption)).map log10 := by
    rw [List.map_filterMap]
    refine List.filterMap_congr (fun r _ => ?_)
    rw [TestResult.score_log10, except_toOption_map]
  refine ⟨?_, ?_, ?_, ?_⟩
  · simpa [TestStats.new] using u64_sum_eq_sum_mod (results.filterMap (fun r => r.score.toOption))
  · simp [TestStats.new, hlog, max_comm]
  · simp [TestStats.new, max_comm]
  · simp [TestStats.new]

/-- Claim C10: if the best-score store file cannot be opened, loading it
returns an empty map rather than an error, and every test case built from the
empty map has no reference score, hence relative score `100` and every
successful score counted as a new best. -/
theorem claim_c10_missing_best_scores (objective : Objective)
    (start_seed end_seed : Nat) :
    load_best_scores none = Except.ok [] ∧
    (∀ tc, tc ∈ build_test_cases [] objective start_seed end_seed →
      tc.reference_score = none ∧
      ∀ s : Nat, tc.calc_relative_score s = 100 ∧ tc.is_best (some s) = true) := by
  refine ⟨rfl, fun tc htc => ?_⟩
  simp only [build_test_cases, List.mem_map] at htc
  obtain ⟨seed, hseed, rfl⟩ := htc
  exact ⟨rfl, fun s => ⟨rfl, rfl⟩⟩

/-- Witness for claim C10 at the concrete seed range `[0, 2)` and seed 0. -/
theorem claim_c10_missing_best_scores_witness :
    load_best_scores none = Except.ok [] ∧
    TestCase.reference_score
      { seed := 0, reference_score := none, objective := Objective.Max } = none ∧
    TestCase.calc_relative_score
      { seed := 0, reference_score := none, objective := Objective.Max } 5 = 100 ∧
    TestCase.is_best
      { seed := 0, reference_score := none, objective := Objective.Max } (some 5) = true :=
  have h := claim_c10_missing_best_scores Objective.Max 0 2
  have hm := h.2 { seed := 0, reference_score := none, objective := Objective.Max }
    (by decide)
  ⟨h.1, hm.1, (hm.2 5).1, (hm.2 5).2⟩

/-- Claim C1 counterexample: with all steps succeeding, the extracted score
`5 / 2` is positive and is not an integer (it differs from its floor), yet
the case is classified `Success(2)` — not `Failure("Wrong Answer")` — because
`run` truncates the parsed float with the `as u64` cast before the
`NonZeroU64` check. -/
theorem claim_c1_counterexample :
    extract_score cdecode ccaptures cparse [[], []] = some (5 / 2) ∧
    (0 : ℚ) < 5 / 2 ∧ ((⌊(5 / 2 : ℚ)⌋ : ℚ) ≠ 5 / 2) ∧
    (SingleCaseRunner.run cexec cdecode ccaptures cparse crunner ctc).score
      = Except.ok 2 := by
  have hf : f64_as_u64 (5 / 2) = 2 := by
    unfold f64_as_u64
    rw [if_neg (by norm_num)]
    have hfl : ((5 : ℚ) / 2).floor = 2 := by
      show ⌊(5 : ℚ) / 2⌋ = 2
      norm_num
    rw [hfl]
    decide
  refine ⟨rfl, by norm_num, by norm_num, ?_⟩
  have hrun : run_steps cexec ctc.seed crunner.steps = Except.ok ([[], []], 0) := rfl
  unfold SingleCaseRunner.run
  rw [hrun]
  have hex : extract_score cdecode ccaptures cparse [[], []] = some (5 / 2) := rfl
  simp only [hex, hf, TestResult.new]
  rfl

/-- Claim C1 as amended: with all steps completing successfully and an
extracted score `sc`, the case is classified `Failure("Wrong Answer")` iff
the saturating truncation of `sc` to `u64` is zero, i.e. iff `sc < 1`; when
`1 ≤ sc` the case is a `Success` whose score is the truncation
`min ⌊sc⌋ (2 ^ 64 - 1)` — so a non-integer extracted value at least `1`
yields a `Success`, not a `Wrong Answer`. -/
theorem claim_c1_amended (exec : Nat → TestStep → Except String (List Nat × List Nat × Nat))
    (decode : List Nat → String) (captures : String → List String)
    (parse : String → Option ℚ) (runner : SingleCaseRunner) (tc : TestCase)
    (outputs : List (List Nat)) (t : Nat) (sc : ℚ)
    (hrun : run_steps exec tc.seed runner.steps = Except.ok (outputs, t))
    (hex : extract_score decode captures parse outputs = some sc) :
    ((SingleCaseRunner.run exec decode captures parse runner tc).score
        = Except.error "Wrong Answer" ↔ sc < 1) ∧
    (1 ≤ sc →
      (SingleCaseRunner.run exec decode captures parse runner tc).score
        = Except.ok (min sc.floor.toNat (2 ^ 64 - 1))) := by
  have hz : f64_as_u64 sc = 0 ↔ sc < 1 := by
    unfold f64_as_u64
    by_cases hneg : sc < 0
    · rw [if_pos hneg]
      constructor
      · intro _
        linarith
      · intro _
        rfl
    · rw [if_neg hneg]
      rw [Nat.min_eq_zero_iff]
      constructor
      · rintro (h | h)
        · rw [Int.toNat_eq_zero] at h
          have h2 : (⌊sc⌋ : ℤ) ≤ 0 := h
          rw [Int.floor_le_iff] at h2
          simpa using h2
        · exact absurd h (by norm_num)
      · intro h1
        left
        rw [Int.toNat_eq_zero]
        show (⌊sc⌋ : ℤ) ≤ 0
        rw [Int.floor_le_iff]
        simpa using h1
  have hscore : (SingleCaseRunner.run exec decode captures parse runner tc).score
      = (match nonZeroU64_new (f64_as_u64 sc) with
         | some s => Except.ok s
         | none => Except.error "Wrong Answer") := by
    unfold SingleCaseRunner.run
    rw [hrun]
    simp only [hex, TestResult.new]
  constructor
  · rw [hscore]
    by_cases h0 : f64_as_u64 sc = 0
    · simp only [nonZeroU64_new, h0, if_pos rfl]
      simpa using hz.mp h0
    · simp only [nonZeroU64_new, if_neg h0]
      simpa using fun h => h0 (hz.mpr h)
  · intro h1
    have h0 : ¬ f64_as_u64 sc = 0 := fun h => by
      have := hz.mp h
      linarith
    rw [hscore]
    simp only [nonZeroU64_new, if_neg h0]
    have : f64_as_u64 sc = min sc.floor.toNat (2 ^ 64 - 1) := by
      unfold f64_as_u64
      rw [if_neg (by intro h; linarith)]
    rw [this]

/-- Witness for the amended claim C1 at the concrete extracted value
`5 / 2`. -/
theorem claim_c1_amended_witness :
    ((SingleCaseRunner.run cexec cdecode ccaptures cparse crunner ctc).score
        = Except.error "Wrong Answer" ↔ (5 / 2 : ℚ) < 1) ∧
    (SingleCaseRunner.run cexec cdecode ccaptures cparse crunner ctc).score
        = Except.ok (min (5 / 2 : ℚ).floor.toNat (2 ^ 64 - 1)) :=
  have h := claim_c1_amended cexec cdecode ccaptures cparse crunner ctc
    [[], []] 0 (5 / 2) rfl rfl
  ⟨h.1, h.2 (by norm_num)⟩

/-- Unfolding equation for `run_steps` on a cons cell. -/
theorem run_steps_cons (exec : Nat → TestStep → Except String (List Nat × List Nat × Nat))
    (seed : Nat) (step : TestStep) (rest : List TestStep) :
    run_steps exec seed (step :: rest)
      = match exec seed step with
        | Except.error e => Except.error e
        | Except.ok (out, err, elapsed) =>
          match run_steps exec seed rest with
          | Except.error e => Except.error e
          | Except.ok (outputs, execution_time) =>
            Except.ok (out :: err :: outputs,
              (if step.measure_time then elapsed else 0) + execution_time) := rfl

/-- Helper for claim C7: once a step fails, `run_steps` yields exactly that
step's error, whatever the steps after it are. -/
theorem run_steps_error_of_mem
    (exec : Nat → TestStep → Except String (List Nat × List Nat × Nat))
    (seed : Nat) (bad : TestStep) (e : String)
    (hbad : exec seed bad = Except.error e) :
    ∀ pre : List TestStep, (∀ s ∈ pre, ∃ v, exec seed s = Except.ok v) →
      ∀ post : List TestStep,
        run_steps exec seed (pre ++ bad :: post) = Except.error e := by
  intro pre
  induction pre with
  | nil =>
    intro _ post
    simp only [List.nil_append, run_steps_cons, hbad]
  | cons s rest ih =>
    intro hpre post
    obtain ⟨v, hv⟩ := hpre s (List.mem_cons_self s rest)
    obtain ⟨out, err, elapsed⟩ := v
    have hrest : ∀ x ∈ rest, ∃ v, exec seed x = Except.ok v :=
      fun x hx => hpre x (List.mem_cons_of_mem s hx)
    simp only [List.cons_append, run_steps_cons, hv, ih hrest post]

/-- Claim C7: for every test case in which some step fails (whatever kind of
error `exec` reports: spawn failure, input-open failure, output-write failure
or non-zero exit status — all reach `run_steps` as the step's `Err`), the
case result is a `Failure` carrying that error with `execution_time = 0`, and
the steps after the failing one are never executed: the outcome is the same
for every possible tail after the failing step. -/
theorem claim_c7_short_circuit
    (exec : Nat → TestStep → Except String (List Nat × List Nat × Nat))
    (decode : List Nat → String) (captures : String → List String)
    (parse : String → Option ℚ) (runner : SingleCaseRunner) (tc : TestCase)
    (pre post : List TestStep) (bad : TestStep) (e : String)
    (hsteps : runner.steps = pre ++ bad :: post)
    (hpre : ∀ s ∈ pre, ∃ v, exec tc.seed s = Except.ok v)
    (hbad : exec tc.seed bad = Except.error e) :
    run_steps exec tc.seed runner.steps = Except.error e ∧
    (∀ post2 : List TestStep,
      run_steps exec tc.seed (pre ++ bad :: post2) = Except.error e) ∧
    (SingleCaseRunner.run exec decode captures parse runner tc).score
      = Except.error e ∧
    (SingleCaseRunner.run exec decode captures parse runner tc).execution_time = 0 := by
  have h2 := run_steps_error_of_mem exec tc.seed bad e hbad pre hpre
  have h1 : run_steps exec tc.seed runner.steps = Except.error e := by
    rw [hsteps]
    exact h2 post
  refine ⟨h1, h2, ?_, ?_⟩
  · unfold SingleCaseRunner.run
    rw [h1]
    rfl
  · unfold SingleCaseRunner.run
    rw [h1]
    rfl

/-- Witness for claim C7: a three-step runner whose middle step fails with
`boom`. -/
theorem claim_c7_short_circuit_witness :
    run_steps wexec7 ctc.seed wrunner7.steps = Except.error "boom" ∧
    run_steps wexec7 ctc.seed ([wgood] ++ wbad :: []) = Except.error "boom" ∧
    (SingleCaseRunner.run wexec7 cdecode wcaptures wparse wrunner7 ctc).score
      = Except.error "boom" ∧
    (SingleCaseRunner.run wexec7 cdecode wcaptures wparse wrunner7 ctc).execution_time
      = 0 :=
  have h := claim_c7_short_circuit wexec7 cdecode wcaptures wparse wrunner7 ctc
    [wgood] [wgood] wbad "boom" rfl
    (by
      intro s hs
      rw [List.mem_singleton] at hs
      subst hs
      exact ⟨([1], [2], 3), rfl⟩)
    rfl
  ⟨h.1, h.2.1 [], h.2.2.1, h.2.2.2⟩

/-- Claim C9: for every executed step whose stdout or stderr path is
configured, when the child exits with a non-zero status (and the writes
themselves succeed), `runCmd` returns the `Failed to run (status)` error and
its effect trace — all of which is emitted before the status check, which
performs no effect — contains the write of each configured output file, so
the files were already written when the step-failed error was produced. -/
theorem claim_c9_writes_before_status (output : Except String CmdOutput)
    (writeOk : String → Bool) (step : TestStep) (seed : Nat) (out : CmdOutput)
    (hout : output = Except.ok out) (hst : out.status ≠ 0)
    (hw : ∀ p, writeOk p = true) :
    (runCmd output writeOk step seed).2
      = Except.error ("Failed to run (" ++ toString out.status
          ++ "). command: " ++ step.program) ∧
    (∀ p, step.stdout = some p →
      Effect.writeFile (replace_placeholder p seed) out.stdout
        ∈ (runCmd output writeOk step seed).1) ∧
    (∀ p, step.stderr = some p →
      Effect.writeFile (replace_placeholder p seed) out.stderr
        ∈ (runCmd output writeOk step seed).1) := by
  subst hout
  cases hso : step.stdout with
  | none =>
    cases hse : step.stderr with
    | none =>
      refine ⟨by simp [runCmd, try_write, hso, hse, hst], fun p hp => ?_, fun p hp => ?_⟩
      · simp at hp
      · simp at hp
    | some q =>
      refine ⟨by simp [runCmd, try_write, hso, hse, hst, hw], fun p hp => ?_, fun p hp => ?_⟩
      · simp at hp
      · injection hp with hp
        subst hp
        simp [runCmd, try_write, hso, hse, hst, hw]
  | some q =>
    cases hse : step.stderr with
    | none =>
      refine ⟨by simp [runCmd, try_write, hso, hse, hst, hw], fun p hp => ?_, fun p hp => ?_⟩
      · injection hp with hp
        subst hp
        simp [runCmd, try_write, hso, hse, hst, hw]
      · simp at hp
    | some q2 =>
      refine ⟨by simp [runCmd, try_write, hso, hse, hst, hw], fun p hp => ?_, fun p hp => ?_⟩
      · injection hp with hp
        subst hp
        simp [runCmd, try_write, hso, hse, hst, hw]
      · injection hp with hp
        subst hp
        simp [runCmd, try_write, hso, hse, hst, hw]

/-- Witness for claim C9: a step with both output paths configured and a
child exiting with status 1. -/
theorem claim_c9_writes_before_status_witness :
    (runCmd (Except.ok wout9) wwriteOk wstep9 0).2
      = Except.error ("Failed to run (" ++ toString wout9.status
          ++ "). command: " ++ wstep9.program) ∧
    Effect.writeFile (replace_placeholder "out/{SEED04}.txt" 0) wout9.stdout
      ∈ (runCmd (Except.ok wout9) wwriteOk wstep9 0).1 ∧
    Effect.writeFile (replace_placeholder "err/{SEED04}.txt" 0) wout9.stderr
      ∈ (runCmd (Except.ok wout9) wwriteOk wstep9 0).1 :=
  have h := claim_c9_writes_before_status (Except.ok wout9) wwriteOk wstep9 0 wout9
    rfl (by decide) (fun p => rfl)
  ⟨h.1, h.2.1 _ rfl, h.2.2 _ rfl⟩

/-- Claim C3: for every run over the seed range `[start_seed, end_seed)` with
`start_seed < end_seed`, whatever order the cases were submitted in (the
`shuffle` flag: `cases_list` is any permutation of the built cases) and
whatever order the workers completed in (`arrival` is any permutation of the
per-case results), the final report's result list has exactly
`end_seed - start_seed` entries, its seeds are exactly
`start_seed, start_seed + 1, …, end_seed - 1` in ascending order (so each
seed of the range appears exactly once), and it is sorted by seed. -/
theorem claim_c3_report_sorted_complete (log10 : Nat → ℚ)
    (exec : Nat → TestStep → Except String (List Nat × List Nat × Nat))
    (decode : List Nat → String) (captures : String → List String)
    (parse : String → Option ℚ) (runner : SingleCaseRunner)
    (best_scores : List (Nat × Nat)) (objective : Objective)
    (start_seed end_seed : Nat) (hlt : start_seed < end_seed)
    (cases_list : List TestCase)
    (hshuffle : cases_list.Perm (build_test_cases best_scores objective start_seed end_seed))
    (arrival : List TestResult)
    (harrival : arrival.Perm (cases_list.map
      (fun tc => SingleCaseRunner.run exec decode captures parse runner tc))) :
    (collect_results log10 arrival).results.length = end_seed - start_seed ∧
    (collect_results log10 arrival).results.map (fun r => r.test_case.seed)
      = List.range' start_seed (end_seed - start_seed) ∧
    ((collect_results log10 arrival).results.map
      (fun r => r.test_case.seed)).Sorted (· ≤ ·) := by
  have hres : (collect_results log10 arrival).results
      = arrival.mergeSort (fun a b => decide (a.test_case.seed ≤ b.test_case.seed)) := rfl
  have hperm : (arrival.mergeSort
        (fun a b => decide (a.test_case.seed ≤ b.test_case.seed))).Perm
      (cases_list.map (fun tc => SingleCaseRunner.run exec decode captures parse runner tc)) :=
    (List.mergeSort_perm arrival _).trans harrival
  have hpermseed : ((collect_results log10 arrival).results.map
        (fun r => r.test_case.seed)).Perm
      (List.range' start_seed (end_seed - start_seed)) := by
    rw [hres]
    have h1 := hperm.map (fun r : TestResult => r.test_case.seed)
    rw [List.map_map] at h1
    have h2 : cases_list.map ((fun r : TestResult => r.test_case.seed) ∘
          (fun tc => SingleCaseRunner.run exec decode captures parse runner tc))
        = cases_list.map (fun tc : TestCase => tc.seed) :=
      List.map_congr_left (fun tc _ => by
        show (SingleCaseRunner.run exec decode captures parse runner tc).test_case.seed
          = tc.seed
        rw [run_test_case_eq])
    rw [h2] at h1
    have h3 := hshuffle.map (fun tc : TestCase => tc.seed)
    have h4 : (build_test_cases best_scores objective start_seed end_seed).map
        (fun tc : TestCase => tc.seed) = List.range' start_seed (end_seed - start_seed) := by
      unfold build_test_cases
      rw [List.map_map]
      exact List.map_id'' (fun x => rfl) _
    rw [h4] at h3
    exact h1.trans h3
  have hsort : ((collect_results log10 arrival).results.map
      (fun r => r.test_case.seed)).Sorted (· ≤ ·) := by
    rw [hres]
    have hp := @List.sorted_mergeSort TestResult
      (fun a b => decide (a.test_case.seed ≤ b.test_case.seed))
      (fun a b c h1 h2 => by
        simp only [decide_eq_true_eq] at h1 h2 ⊢
        exact Nat.le_trans h1 h2)
      (fun a b => by
        simp only [Bool.or_eq_true, decide_eq_true_eq]
        exact Nat.le_total _ _)
      arrival
    exact List.pairwise_map.mpr (hp.imp (fun h => by simpa using h))
  have hrs : (List.range' start_seed (end_seed - start_seed)).Sorted (· ≤ ·) :=
    (List.pairwise_lt_range' start_seed (end_seed - start_seed)).imp
      (fun h => Nat.le_of_lt h)
  have heq : (collect_results log10 arrival).results.map (fun r => r.test_case.seed)
      = List.range' start_seed (end_seed - start_seed) :=
    List.eq_of_perm_of_sorted hpermseed hsort hrs
  refine ⟨?_, heq, hsort⟩
  have hlen := congrArg List.length heq
  rw [List.length_map, List.length_range'] at hlen
  exact hlen

/-- Witness for claim C3: the seed range `[0, 2)` with shuffled submission
order and reversed completion order. -/
theorem claim_c3_report_sorted_complete_witness :
    (collect_results wlog10 warrival3).results.length = 2 - 0 ∧
    (collect_results wlog10 warrival3).results.map (fun r => r.test_case.seed)
      = List.range' 0 (2 - 0) ∧
    ((collect_results wlog10 warrival3).results.map
      (fun r => r.test_case.seed)).Sorted (· ≤ ·) :=
  claim_c3_report_sorted_complete wlog10 cexec cdecode wcaptures wparse wrunner3
    [] Objective.Max 0 2 (by norm_num) wcases3 (by decide) warrival3
    (List.Perm.of_eq rfl)

/-- Claim C4 counterexample: in the source, a test step cannot carry an
OS-filter regex (`TestStep` has no such field) and `run_steps` never skips a
step.  Concretely, for a step that the spec's data model equips with the
OS-filter `windows` — which the regex oracle reports as not matching the
running OS — the spec-side execution `run_steps_spec` skips it (no output
buffers, no execution time), while the source `run_steps` executes it and the
step contributes output buffers and execution time `5`. -/
theorem claim_c4_counterexample :
    run_steps_spec c4matchOS c4exec 0 [c4step] = Except.ok ([], 0) ∧
    run_steps c4exec 0 [c4step.toTestStep] = Except.ok ([[1], [2]], 5) ∧
    (Except.ok ([[1], [2]], 5) : Except String (List (List Nat) × Nat))
      ≠ Except.ok ([], 0) := by
  refine ⟨rfl, rfl, by decide⟩

/-- Claim C4 as amended: the OS-filter skip semantics live in the pre-run
compile phase, not in case execution.  For every compile step carrying an
OS-filter regex: if the regex compiles and does not match the running OS, the
step is skipped entirely — no command executed, nothing logged, no error, the
outcome being identical to the run without that step; if the regex is
malformed, the step is skipped with exactly one logged message rather than a
fatal error — the executed commands and the outcome are unchanged. -/
theorem claim_c4_amended (matchOS : String → Option Bool)
    (execStatus : CompileStep → Except String Int)
    (step : CompileStep) (rest : List CompileStep) (r : String)
    (hreg : step.os_regex = some r) :
    (matchOS r = some false →
      compile matchOS execStatus (step :: rest) = compile matchOS execStatus rest) ∧
    (matchOS r = none →
      compile matchOS execStatus (step :: rest)
        = ((compile matchOS execStatus rest).1,
           "Invalid regex found in test step." :: (compile matchOS execStatus rest).2.1,
           (compile matchOS execStatus rest).2.2)) := by
  rcases hcomp : compile matchOS execStatus rest with ⟨executed, logs, outcome⟩
  constructor
  · intro hm
    simp [compile, hreg, hm, hcomp]
  · intro hm
    simp [compile, hreg, hm, hcomp]

/-- Witness for the amended claim C4: one compile step filtered out by a
non-matching OS regex and one with a malformed regex, each in front of an
ordinary build step. -/
theorem claim_c4_amended_witness :
    (compile wmatchOS4 wexecStatus4 (wcstep1 :: wcrest)
      = compile wmatchOS4 wexecStatus4 wcrest) ∧
    (compile wmatchOS4 wexecStatus4 (wcstep2 :: wcrest)
      = ((compile wmatchOS4 wexecStatus4 wcrest).1,
         "Invalid regex found in test step."
           :: (compile wmatchOS4 wexecStatus4 wcrest).2.1,
         (compile wmatchOS4 wexecStatus4 wcrest).2.2)) :=
  ⟨(claim_c4_amended wmatchOS4 wexecStatus4 wcstep1 wcrest "windows" rfl).1 rfl,
   (claim_c4_amended wmatchOS4 wexecStatus4 wcstep2 wcrest "bad" rfl).2 rfl⟩

end Pahcer
